import Mathlib

/-!
Shallow embedding of the user-management core of `src/server.js`
(Express + SQLite CRUD backend): the `validateUser` function, the
`users` table with its UNIQUE email constraint, and the GET/POST/PUT/
DELETE request handlers.  JavaScript values reaching the handlers are
modelled by `JSVal`; a thrown `TypeError` (e.g. calling `.trim()` on a
non-string) is modelled by `Except.error ()`.
-/

/-- A JSON-ish JavaScript value as it can appear in a request-body field.
`undefined` doubles as "field absent"; `obj` stands for any plain object
or array (truthy, has no `trim` method). -/
inductive JSVal where
  | undefined
  | null
  | bool (b : Bool)
  | num (n : Int)
  | str (s : String)
  | obj
deriving DecidableEq

/-- JavaScript truthiness of a `JSVal`. -/
def truthy : JSVal → Bool
  | .undefined => false
  | .null => false
  | .bool b => b
  | .num n => n != 0
  | .str s => s != ""
  | .obj => true

/-- JavaScript `String(v)` coercion (used by `RegExp.test`). -/
def jsToString : JSVal → String
  | .undefined => "undefined"
  | .null => "null"
  | .bool true => "true"
  | .bool false => "false"
  | .num n => toString n
  | .str s => s
  | .obj => "[object Object]"

/-- The `.length` property read: strings have a length, other primitives
and plain objects yield `undefined` (modelled as `none`). -/
def jsLen : JSVal → Option Nat
  | .str s => some s.length
  | _ => none

/-- JavaScript `v.length < k` where `v.length` may be `undefined`
(`undefined < k` is `false`). -/
def lenLt (v : JSVal) (k : Nat) : Bool :=
  match jsLen v with
  | some n => n < k
  | none => false

/-- JavaScript `v.length > k` where `v.length` may be `undefined`. -/
def lenGt (v : JSVal) (k : Nat) : Bool :=
  match jsLen v with
  | some n => k < n
  | none => false

/-- List-level trim: drop whitespace from the front, then from the back. -/
def trimChars (l : List Char) : List Char :=
  ((l.dropWhile Char.isWhitespace).reverse.dropWhile Char.isWhitespace).reverse

/-- `String.prototype.trim`. -/
def jsStrTrim (s : String) : String :=
  ⟨trimChars s.toList⟩

/-- The 26 ASCII upper/lower case pairs used by `toLowerCase` on the
character repertoire this application deals with. -/
def upPairs : List (Char × Char) :=
  [('A', 'a'), ('B', 'b'), ('C', 'c'), ('D', 'd'), ('E', 'e'), ('F', 'f'),
   ('G', 'g'), ('H', 'h'), ('I', 'i'), ('J', 'j'), ('K', 'k'), ('L', 'l'),
   ('M', 'm'), ('N', 'n'), ('O', 'o'), ('P', 'p'), ('Q', 'q'), ('R', 'r'),
   ('S', 's'), ('T', 't'), ('U', 'u'), ('V', 'v'), ('W', 'w'), ('X', 'x'),
   ('Y', 'y'), ('Z', 'z')]

/-- Lower-case one character (ASCII fragment of `toLowerCase`). -/
def jsCharLower (c : Char) : Char :=
  match upPairs.find? (fun p => p.fst == c) with
  | some p => p.snd
  | none => c

/-- `String.prototype.toLowerCase` (ASCII fragment). -/
def jsStrLower (s : String) : String :=
  ⟨s.toList.map jsCharLower⟩

/-- Calling `.trim()` on a value: a `TypeError` unless it is a string. -/
def jsTrim : JSVal → Except Unit String
  | .str s => Except.ok (jsStrTrim s)
  | _ => Except.error ()

/-- One `[^\s@]+` atom character. -/
def atomChar (c : Char) : Bool :=
  !c.isWhitespace && c != '@'

/-- A nonempty run of `[^\s@]` characters. -/
def emailAtom (cs : List Char) : Bool :=
  !cs.isEmpty && cs.all atomChar

/-- The `[^\s@]+\.[^\s@]+` part of the email regex. -/
def emailDomain (cs : List Char) : Bool :=
  (List.range cs.length).any fun i =>
    cs.getD i ' ' == '.' && emailAtom (cs.take i) && emailAtom (cs.drop (i + 1))

/-- The regex `^[^\s@]+@[^\s@]+\.[^\s@]+$` from `validateUser`. -/
def matchEmail (s : String) : Bool :=
  let cs := s.toList
  (List.range cs.length).any fun i =>
    cs.getD i ' ' == '@' && emailAtom (cs.take i) && emailDomain (cs.drop (i + 1))

/-- The regex `^\d{10}$` from `validateUser`. -/
def matchPhone (s : String) : Bool :=
  s.toList.length == 10 && s.toList.all Char.isDigit

/-- The request body of the user endpoints; a missing field is
`JSVal.undefined`. -/
structure UserInput where
  full_name : JSVal
  email : JSVal
  phone : JSVal
  role : JSVal
  password : JSVal
deriving DecidableEq

def fullNameMsg : String := "Full Name must be between 2 and 50 characters"
def emailMsg : String := "A valid email is required"
def phoneMsg : String := "Phone must be exactly 10 digits"
def roleMsg : String := "Role must be Admin, User, or Guest"
def passwordMsg : String := "Password must be at least 8 characters"

/-- `if (!data.full_name || data.full_name.trim().length < 2 || ... > 50)`:
the `.trim()` call throws when `full_name` is truthy but not a string. -/
def checkFullName (v : JSVal) : Except Unit (List String) :=
  if truthy v = false then Except.ok [fullNameMsg]
  else
    match v with
    | .str s =>
        Except.ok
          (if (jsStrTrim s).length < 2 ∨ 50 < (jsStrTrim s).length then [fullNameMsg] else [])
    | _ => Except.error ()

/-- `if (!data.email || !emailRegex.test(data.email))`. -/
def checkEmail (v : JSVal) : List String :=
  if truthy v = false ∨ matchEmail (jsToString v) = false then [emailMsg] else []

/-- `if (!data.phone || !phoneRegex.test(data.phone))`. -/
def checkPhone (v : JSVal) : List String :=
  if truthy v = false ∨ matchPhone (jsToString v) = false then [phoneMsg] else []

def validRoles : List String := ["Admin", "User", "Guest"]

/-- `validRoles.includes(data.role)` uses strict equality, so only the
exact role strings match. -/
def roleIncluded (v : JSVal) : Bool :=
  match v with
  | .str s => validRoles.contains s
  | _ => false

/-- `if (!data.role || !validRoles.includes(data.role))`. -/
def checkRole (v : JSVal) : List String :=
  if truthy v = false ∨ roleIncluded v = false then [roleMsg] else []

/-- The two password rules of `validateUser` (create vs update). -/
def checkPassword (v : JSVal) (isUpdate : Bool) : List String :=
  if isUpdate = false then
    if truthy v = false ∨ lenLt v 8 = true then [passwordMsg] else []
  else
    if truthy v = true ∧ lenGt v 0 = true ∧ lenLt v 8 = true then [passwordMsg] else []

/-- `validateUser(data, isUpdate)` from `src/server.js`: accumulates the
error messages in source order; `Except.error ()` models the thrown
`TypeError` from `data.full_name.trim()` on a truthy non-string. -/
def validateUser (data : UserInput) (isUpdate : Bool) : Except Unit (List String) :=
  match checkFullName data.full_name with
  | Except.error e => Except.error e
  | Except.ok e1 =>
      Except.ok
        (e1 ++ checkEmail data.email ++ checkPhone data.phone ++
          checkRole data.role ++ checkPassword data.password isUpdate)

example :
    validateUser ⟨.str "John Doe", .str "a@b.com", .str "1234567890", .str "Admin",
      .str "password1"⟩ false = Except.ok [] := by rfl

example :
    validateUser ⟨.num 5, .str "a@b.com", .str "1234567890", .str "Admin",
      .str "password1"⟩ false = Except.error () := by rfl

example : matchEmail "a@b" = false := by rfl
example : matchEmail "a@b.com" = true := by rfl
example : matchPhone "12345" = false := by rfl
example : matchPhone "1234567890" = true := by rfl

/-- A row of the `users` table. -/
structure UserRow where
  id : Nat
  full_name : String
  email : String
  phone : String
  role : String
  password : String
deriving DecidableEq

/-- The `users` table plus the AUTOINCREMENT counter. -/
structure UserStore where
  rows : List UserRow
  nextId : Nat
deriving DecidableEq

/-- A row as returned by `SELECT id, full_name, email, phone, role`:
the password column is not selected. -/
structure PubUser where
  id : Nat
  full_name : String
  email : String
  phone : String
  role : String
deriving DecidableEq

/-- Project a stored row onto the password-free columns. -/
def toPub (r : UserRow) : PubUser :=
  ⟨r.id, r.full_name, r.email, r.phone, r.role⟩

/-- Response bodies the user handlers can produce. -/
inductive RespBody where
  | errorMsg (e : String)
  | message (m : String)
  | created (id : Nat) (full_name email phone role : JSVal)
  | userList (rows : List PubUser)
deriving DecidableEq

/-- An HTTP status code plus JSON body. -/
structure ApiResponse where
  status : Nat
  body : RespBody
deriving DecidableEq

/-- The schema-level `UNIQUE` check on `users.email` (binary collation:
exact string comparison against the stored rows). -/
def emailTaken (rows : List UserRow) (em : String) : Bool :=
  rows.any fun r => r.email == em

/-- `INSERT INTO users ...`: fails on a UNIQUE-email violation, otherwise
appends a row carrying the fresh AUTOINCREMENT id. -/
def insertRow (st : UserStore) (fn em ph rl pw : String) : Option (Nat × UserStore) :=
  if emailTaken st.rows em then none
  else
    some (st.nextId, ⟨st.rows ++ [⟨st.nextId, fn, em, ph, rl, pw⟩], st.nextId + 1⟩)

/-- `UPDATE users SET ... WHERE id = ?`: `pw = none` is the query that
leaves the password column alone.  Fails on a UNIQUE-email violation
(another row already holds `em`). -/
def updateRows (rows : List UserRow) (i : Nat) (fn em ph rl : String) (pw : Option String) :
    Option (List UserRow) :=
  if rows.any (fun r => r.id != i && r.email == em) then none
  else
    some (rows.map fun r =>
      if r.id = i then ⟨r.id, fn, em, ph, rl, pw.getD r.password⟩ else r)

/-- `GET /api/users`: `SELECT id, full_name, email, phone, role FROM users
ORDER BY id DESC`. -/
def listUsers (st : UserStore) : ApiResponse :=
  ⟨200, .userList (List.insertionSort (fun a b => b.id ≤ a.id) (st.rows.map toPub))⟩

/-- `POST /api/users`: validate, then insert the trimmed row (email also
lowercased), echoing the raw body values back on success. -/
def postUser (body : UserInput) (st : UserStore) : Except Unit (ApiResponse × UserStore) :=
  match validateUser body false with
  | Except.error e => Except.error e
  | Except.ok errors =>
    if 0 < errors.length then
      Except.ok (⟨400, .errorMsg (String.intercalate ", " errors)⟩, st)
    else
      match jsTrim body.full_name with
      | Except.error e => Except.error e
      | Except.ok fn =>
        match jsTrim body.email with
        | Except.error e => Except.error e
        | Except.ok em =>
          match jsTrim body.phone with
          | Except.error e => Except.error e
          | Except.ok ph =>
            match insertRow st fn (jsStrLower em) ph (jsToString body.role)
                (jsToString body.password) with
            | none => Except.ok (⟨400, .errorMsg "Email already exists"⟩, st)
            | some (newId, st2) =>
                Except.ok
                  (⟨201, .created newId body.full_name body.email body.phone body.role⟩, st2)

/-- `PUT /api/users/:id`: validate (update mode), check existence, then
run the conditional UPDATE (password column only set when the supplied
password is truthy with positive length). -/
def putUser (i : Nat) (body : UserInput) (st : UserStore) :
    Except Unit (ApiResponse × UserStore) :=
  match validateUser body true with
  | Except.error e => Except.error e
  | Except.ok errors =>
    if 0 < errors.length then
      Except.ok (⟨400, .errorMsg (String.intercalate ", " errors)⟩, st)
    else if (st.rows.any fun r => r.id == i) = false then
      Except.ok (⟨404, .errorMsg "User not found"⟩, st)
    else
      match jsTrim body.full_name with
      | Except.error e => Except.error e
      | Except.ok fn =>
        match jsTrim body.email with
        | Except.error e => Except.error e
        | Except.ok em =>
          match jsTrim body.phone with
          | Except.error e => Except.error e
          | Except.ok ph =>
            let pw : Option String :=
              if truthy body.password && lenGt body.password 0 then
                some (jsToString body.password)
              else none
            match updateRows st.rows i fn (jsStrLower em) ph (jsToString body.role) pw with
            | none => Except.ok (⟨400, .errorMsg "Email already exists"⟩, st)
            | some rows2 =>
                Except.ok (⟨200, .message "User updated successfully"⟩, ⟨rows2, st.nextId⟩)

/-- `DELETE /api/users/:id`: run the DELETE, report 404 when zero rows
were affected. -/
def deleteUser (i : Nat) (st : UserStore) : ApiResponse × UserStore :=
  if st.rows.countP (fun r => r.id == i) = 0 then
    (⟨404, .errorMsg "User not found"⟩, st)
  else
    (⟨200, .message "User deleted successfully"⟩,
      ⟨st.rows.filter (fun r => !(r.id == i)), st.nextId⟩)

example :
    postUser ⟨.str "John Doe", .str "A@B.com", .str "1234567890", .str "Admin",
        .str "password1"⟩ ⟨[], 1⟩ =
      Except.ok
        (⟨201, .created 1 (.str "John Doe") (.str "A@B.com") (.str "1234567890") (.str "Admin")⟩,
          ⟨[⟨1, "John Doe", "a@b.com", "1234567890", "Admin", "password1"⟩], 2⟩) := by rfl

example :
    deleteUser 3 ⟨[⟨1, "a", "a@b.com", "1234567890", "Admin", "password1"⟩], 2⟩ =
      (⟨404, .errorMsg "User not found"⟩,
        ⟨[⟨1, "a", "a@b.com", "1234567890", "Admin", "password1"⟩], 2⟩) := by rfl

/-- `full_name` values on which `validateUser` cannot throw: strings and
falsy values (the `.trim()` call is short-circuited away on falsy input). -/
def fnSafe : JSVal → Bool
  | .str _ => true
  | v => !truthy v

theorem checkFullName_ok_of_safe (v : JSVal) (h : fnSafe v = true) :
    ∃ e, checkFullName v = Except.ok e ∧ (e = [] ∨ e = [fullNameMsg]) := by
  cases v with
  | str s =>
      by_cases hs : s = ""
      · subst hs; exact ⟨[fullNameMsg], rfl, Or.inr rfl⟩
      · have ht : truthy (JSVal.str s) = true := by simp [truthy, hs]
        have hbody : checkFullName (JSVal.str s) =
            Except.ok (if (jsStrTrim s).length < 2 ∨ 50 < (jsStrTrim s).length
              then [fullNameMsg] else []) := by
          simp [checkFullName, ht]
        by_cases hc : (jsStrTrim s).length < 2 ∨ 50 < (jsStrTrim s).length
        · refine ⟨[fullNameMsg], ?_, Or.inr rfl⟩
          rw [hbody, if_pos hc]
        · refine ⟨[], ?_, Or.inl rfl⟩
          rw [hbody, if_neg hc]
  | undefined => exact ⟨[fullNameMsg], rfl, Or.inr rfl⟩
  | null => exact ⟨[fullNameMsg], rfl, Or.inr rfl⟩
  | bool b =>
      cases b with
      | false => exact ⟨[fullNameMsg], rfl, Or.inr rfl⟩
      | true => simp [fnSafe, truthy] at h
  | num n =>
      by_cases hn : n = 0
      · subst hn; exact ⟨[fullNameMsg], rfl, Or.inr rfl⟩
      · simp [fnSafe, truthy, hn] at h
  | obj => simp [fnSafe, truthy] at h

theorem checkFullName_error_of_unsafe (v : JSVal) (h : fnSafe v = false) :
    checkFullName v = Except.error () := by
  cases v with
  | str s => simp [fnSafe] at h
  | undefined => simp [fnSafe, truthy] at h
  | null => simp [fnSafe, truthy] at h
  | bool b =>
      cases b with
      | false => simp [fnSafe, truthy] at h
      | true => rfl
  | num n =>
      by_cases hn : n = 0
      · subst hn; simp [fnSafe, truthy] at h
      · have ht : truthy (JSVal.num n) = true := by simp [truthy, hn]
        simp [checkFullName, ht]
  | obj => rfl

/-- Claim C3 counterexample: on a record whose `full_name` is the number 5
(a legal JSON value), `validateUser` throws a `TypeError`
(`data.full_name.trim` is not a function) instead of returning a list. -/
theorem validateUser_throws_on_numeric_full_name :
    validateUser ⟨.num 5, .str "a@b.com", .str "1234567890", .str "Admin",
      .str "password1"⟩ false = Except.error () := by rfl

/-- Claim C3 (amended): `validateUser` terminates and returns a (possibly
empty) list of error strings for every record whose `full_name` is a string
or a falsy value, for both values of `isUpdate`; when `full_name` is a
truthy non-string, it instead raises a `TypeError`. -/
theorem validateUser_total_on_safe_input (data : UserInput) (isUpdate : Bool) :
    (fnSafe data.full_name = true →
      ∃ errs, validateUser data isUpdate = Except.ok errs) ∧
    (fnSafe data.full_name = false →
      validateUser data isUpdate = Except.error ()) := by
  constructor
  · intro h
    obtain ⟨e, he, _⟩ := checkFullName_ok_of_safe data.full_name h
    exact ⟨_, by rw [validateUser, he]⟩
  · intro h
    rw [validateUser, checkFullName_error_of_unsafe data.full_name h]

/-- Claim C3 amended-theorem witness at concrete inputs. -/
theorem validateUser_total_witness :
    fnSafe (.str "John Doe") = true ∧
    (∃ errs,
      validateUser ⟨.str "John Doe", .str "a@b.com", .str "1234567890", .str "Admin",
        .str "password1"⟩ false = Except.ok errs) ∧
    fnSafe .obj = false ∧
    validateUser ⟨.obj, .str "a@b.com", .str "1234567890", .str "Admin",
      .str "password1"⟩ false = Except.error () :=
  ⟨rfl,
    (validateUser_total_on_safe_input
      ⟨.str "John Doe", .str "a@b.com", .str "1234567890", .str "Admin",
        .str "password1"⟩ false).1 rfl,
    rfl,
    (validateUser_total_on_safe_input
      ⟨.obj, .str "a@b.com", .str "1234567890", .str "Admin",
        .str "password1"⟩ false).2 rfl⟩

theorem string_length_pos_iff (p : String) : 0 < p.length ↔ p ≠ "" := by
  obtain ⟨l⟩ := p
  have h1 : (String.mk l).length = l.length := rfl
  have h2 : (String.mk l = "") ↔ l = [] := by
    constructor
    · intro h
      have := congrArg String.data h
      simpa using this
    · intro h; subst h; rfl
  simp only [h1, ne_eq, h2, List.length_pos]

theorem pwMsg_notin_checkEmail (v : JSVal) : passwordMsg ∉ checkEmail v := by
  unfold checkEmail; split
  · intro hm
    rw [List.mem_singleton] at hm
    exact absurd hm (by decide)
  · simp

theorem pwMsg_notin_checkPhone (v : JSVal) : passwordMsg ∉ checkPhone v := by
  unfold checkPhone; split
  · intro hm
    rw [List.mem_singleton] at hm
    exact absurd hm (by decide)
  · simp

theorem pwMsg_notin_checkRole (v : JSVal) : passwordMsg ∉ checkRole v := by
  unfold checkRole; split
  · intro hm
    rw [List.mem_singleton] at hm
    exact absurd hm (by decide)
  · simp

theorem mem_ite_singleton (c : Prop) [Decidable c] (a : String) :
    a ∈ (if c then [a] else []) ↔ c := by
  split <;> simp [*]

/-- Claim C7: `validateUser` includes the password error exactly when: on
create, the password is missing (absent/null) or is a string shorter than
8 characters; on update, a string password of length in (0,8) is supplied;
on update with the password absent, null or the empty string there is no
password error. -/
theorem password_rule_exact (fn em ph rl pw : JSVal) (isUpdate : Bool)
    (hfn : fnSafe fn = true)
    (hpw : pw = .undefined ∨ pw = .null ∨ ∃ p, pw = .str p) :
    ∃ errs, validateUser ⟨fn, em, ph, rl, pw⟩ isUpdate = Except.ok errs ∧
      (passwordMsg ∈ errs ↔
        (isUpdate = false ∧
          (pw = .undefined ∨ pw = .null ∨ ∃ p, pw = .str p ∧ p.length < 8)) ∨
        (isUpdate = true ∧ ∃ p, pw = .str p ∧ 0 < p.length ∧ p.length < 8)) := by
  obtain ⟨e1, he1, h01⟩ := checkFullName_ok_of_safe fn hfn
  have hnot1 : passwordMsg ∉ e1 := by
    rcases h01 with h | h <;> subst h
    · simp
    · intro hm; rw [List.mem_singleton] at hm; exact absurd hm (by decide)
  refine ⟨_, by simp only [validateUser]; rw [he1], ?_⟩
  have hmem : passwordMsg ∈ (e1 ++ checkEmail em ++ checkPhone ph ++ checkRole rl ++
      checkPassword pw isUpdate) ↔ passwordMsg ∈ checkPassword pw isUpdate := by
    simp only [List.mem_append]
    constructor
    · rintro ((((h | h) | h) | h) | h)
      · exact absurd h hnot1
      · exact absurd h (pwMsg_notin_checkEmail em)
      · exact absurd h (pwMsg_notin_checkPhone ph)
      · exact absurd h (pwMsg_notin_checkRole rl)
      · exact h
    · intro h; exact Or.inr h
  rw [hmem]
  rcases hpw with h | h | ⟨p, h⟩ <;> subst h
  · cases isUpdate <;>
      simp [checkPassword, truthy, lenLt, lenGt, jsLen, mem_ite_singleton]
  · cases isUpdate <;>
      simp [checkPassword, truthy, lenLt, lenGt, jsLen, mem_ite_singleton]
  · cases isUpdate
    · rw [show checkPassword (JSVal.str p) false =
          (if truthy (JSVal.str p) = false ∨ lenLt (JSVal.str p) 8 = true
            then [passwordMsg] else []) from rfl]
      rw [mem_ite_singleton]
      constructor
      · intro hcond
        refine Or.inl ⟨rfl, Or.inr (Or.inr ⟨p, rfl, ?_⟩)⟩
        rcases hcond with h | h
        · have hp : p = "" := by
            by_contra hne
            simp [truthy, hne] at h
          subst hp; decide
        · simpa [lenLt, jsLen] using h
      · rintro (⟨-, hca⟩ | ⟨hfa, -⟩)
        · rcases hca with h | h | ⟨q, hq, hlen⟩
          · exact absurd h (by simp)
          · exact absurd h (by simp)
          · cases hq
            exact Or.inr (by simpa [lenLt, jsLen])
        · exact absurd hfa (by simp)
    · rw [show checkPassword (JSVal.str p) true =
          (if truthy (JSVal.str p) = true ∧ lenGt (JSVal.str p) 0 = true ∧
              lenLt (JSVal.str p) 8 = true then [passwordMsg] else []) from rfl]
      rw [mem_ite_singleton]
      constructor
      · rintro ⟨-, hpos, hlt⟩
        refine Or.inr ⟨rfl, p, rfl, ?_, ?_⟩
        · simpa [lenGt, jsLen] using hpos
        · simpa [lenLt, jsLen] using hlt
      · rintro (⟨hft, -⟩ | ⟨-, q, hq, hpos, hlt⟩)
        · exact absurd hft (by simp)
        · cases hq
          have hne : p ≠ "" := (string_length_pos_iff p).mp hpos
          refine ⟨?_, ?_, ?_⟩
          · simp [truthy, hne]
          · simpa [lenGt, jsLen]
          · simpa [lenLt, jsLen]

/-- Claim C7 witness: on create a 5-character password is rejected; on
update an empty password yields no password error. -/
theorem password_rule_witness :
    fnSafe (.str "John Doe") = true ∧
    (∃ errs,
      validateUser ⟨.str "John Doe", .str "a@b.com", .str "1234567890", .str "Admin",
        .str "short"⟩ false = Except.ok errs ∧
      (passwordMsg ∈ errs ↔
        (false = false ∧
          (JSVal.str "short" = .undefined ∨ JSVal.str "short" = .null ∨
            ∃ p, JSVal.str "short" = .str p ∧ p.length < 8)) ∨
        (false = true ∧
          ∃ p, JSVal.str "short" = .str p ∧ 0 < p.length ∧ p.length < 8))) :=
  ⟨rfl,
    password_rule_exact (.str "John Doe") (.str "a@b.com") (.str "1234567890")
      (.str "Admin") (.str "short") false rfl (Or.inr (Or.inr ⟨"short", rfl⟩))⟩

/-- Claim C8 counterexample: a `full_name` of untrimmed length 51 — outside
[2,50] — whose trimmed length is 49 produces no error at all (the code
checks the trimmed length), with every other field valid. -/
theorem fullname_untrimmed_length_cex :
    ("  aaaaaaaaaaaaaaaaaaaaaaaaaaaaaaaaaaaaaaaaaaaaaaaaa" : String).length = 51 ∧
    ¬(2 ≤ 51 ∧ 51 ≤ 50) ∧
    validateUser ⟨.str "  aaaaaaaaaaaaaaaaaaaaaaaaaaaaaaaaaaaaaaaaaaaaaaaaa",
      .str "a@b.com", .str "1234567890", .str "Admin", .str "password1"⟩ false =
      Except.ok [] :=
  ⟨by decide, by decide, by rfl⟩

/-- Claim C8 (amended): for every record whose `full_name` is a string
whose TRIMMED length is outside [2,50], `validateUser` returns a list that
includes the full_name error message (all other fields arbitrary). -/
theorem fullname_trimmed_length_error (s : String) (e p r w : JSVal) (isUpdate : Bool)
    (h : (jsStrTrim s).length < 2 ∨ 50 < (jsStrTrim s).length) :
    ∃ errs, validateUser ⟨.str s, e, p, r, w⟩ isUpdate = Except.ok errs ∧
      fullNameMsg ∈ errs := by
  by_cases hs : s = ""
  · subst hs
    refine ⟨_, rfl, ?_⟩
    simp
  · have ht : truthy (JSVal.str s) = true := by simp [truthy, hs]
    have hbody : checkFullName (JSVal.str s) = Except.ok [fullNameMsg] := by
      have h1 : checkFullName (JSVal.str s) =
          Except.ok (if (jsStrTrim s).length < 2 ∨ 50 < (jsStrTrim s).length
            then [fullNameMsg] else []) := by simp [checkFullName, ht]
      rw [h1, if_pos h]
    have hfinal : validateUser ⟨.str s, e, p, r, w⟩ isUpdate =
        Except.ok ([fullNameMsg] ++ checkEmail e ++ checkPhone p ++ checkRole r ++
          checkPassword w isUpdate) := by
      simp only [validateUser]
      rw [hbody]
    exact ⟨_, hfinal, by simp⟩

/-- Claim C8 amended-theorem witness: a one-character name (trimmed length
1) triggers the full_name error. -/
theorem fullname_trimmed_length_witness :
    ((jsStrTrim "x").length < 2 ∨ 50 < (jsStrTrim "x").length) ∧
    (∃ errs,
      validateUser ⟨.str "x", .str "a@b.com", .str "1234567890", .str "Admin",
        .str "password1"⟩ false = Except.ok errs ∧ fullNameMsg ∈ errs) :=
  ⟨by decide,
    fullname_trimmed_length_error "x" (.str "a@b.com") (.str "1234567890") (.str "Admin")
      (.str "password1") false (by decide)⟩

/-- Claim C4: a request body that fails validation yields HTTP 400 with the
error messages joined by a comma-space, and the store is untouched, for
both the POST (create) and PUT (update) handlers. -/
theorem validation_failure_is_400_and_pure (body : UserInput) (st : UserStore) (i : Nat)
    (errs : List String) (hne : errs ≠ []) :
    (validateUser body false = Except.ok errs →
      postUser body st =
        Except.ok (⟨400, .errorMsg (String.intercalate ", " errs)⟩, st)) ∧
    (validateUser body true = Except.ok errs →
      putUser i body st =
        Except.ok (⟨400, .errorMsg (String.intercalate ", " errs)⟩, st)) := by
  have hlen : 0 < errs.length := List.length_pos.mpr hne
  constructor
  · intro h
    simp [postUser, h, hlen]
  · intro h
    simp [putUser, h, hlen]

/-- Claim C4 witness: a concrete invalid body is rejected with the joined
message and the concrete store is returned unchanged. -/
theorem validation_failure_witness :
    ([roleMsg, passwordMsg] ≠ ([] : List String)) ∧
    validateUser ⟨.str "John Doe", .str "a@b.com", .str "1234567890", .str "Boss",
      .str "short"⟩ false = Except.ok [roleMsg, passwordMsg] ∧
    postUser ⟨.str "John Doe", .str "a@b.com", .str "1234567890", .str "Boss",
        .str "short"⟩ ⟨[], 1⟩ =
      Except.ok (⟨400, .errorMsg (String.intercalate ", " [roleMsg, passwordMsg])⟩, ⟨[], 1⟩) :=
  ⟨by decide, by rfl,
    (validation_failure_is_400_and_pure
      ⟨.str "John Doe", .str "a@b.com", .str "1234567890", .str "Boss", .str "short"⟩
      ⟨[], 1⟩ 1 [roleMsg, passwordMsg] (by decide)).1 (by rfl)⟩

theorem jsToString_str (s : String) : jsToString (JSVal.str s) = s := rfl

theorem pw_option_getD (pw : JSVal) (old : String) :
    (if truthy pw = true ∧ lenGt pw 0 = true then some (jsToString pw) else none).getD old =
      (match pw with
        | JSVal.str p => if p = "" then old else p
        | _ => old) := by
  cases pw with
  | str p =>
      by_cases hp : p = ""
      · subst hp; simp [truthy]
      · have hpos : 0 < p.length := (string_length_pos_iff p).mpr hp
        simp [truthy, lenGt, jsLen, hp, hpos, jsToString]
  | undefined => simp [truthy]
  | null => simp [truthy]
  | bool b => cases b <;> simp [truthy, lenGt, jsLen]
  | num n => simp [truthy, lenGt, jsLen]
  | obj => simp [truthy, lenGt, jsLen]

/-- Claim C1: a successful update of an existing id overwrites full_name,
email, phone and role (with the trimmed / lowercased values the handler
computes) on exactly the row with that id; the stored password is kept when
the supplied password is absent or the empty string, and replaced when it
is a non-empty string. -/
theorem update_password_semantics (st : UserStore) (i : Nat) (fn em ph rl : String)
    (pw : JSVal)
    (hval : validateUser ⟨.str fn, .str em, .str ph, .str rl, pw⟩ true = Except.ok [])
    (hex : (st.rows.any fun r => r.id == i) = true)
    (hdup : (st.rows.any fun r => r.id != i && r.email == jsStrLower (jsStrTrim em))
      = false) :
    putUser i ⟨.str fn, .str em, .str ph, .str rl, pw⟩ st =
      Except.ok (⟨200, .message "User updated successfully"⟩,
        ⟨st.rows.map fun r =>
          if r.id = i then
            ⟨r.id, jsStrTrim fn, jsStrLower (jsStrTrim em), jsStrTrim ph, rl,
              (match pw with
                | JSVal.str p => if p = "" then r.password else p
                | _ => r.password)⟩
          else r, st.nextId⟩) := by
  simp [putUser, hval, hex, hdup, jsTrim, jsToString_str, updateRows, pw_option_getD]

/-- Claim C1 witness: one update with an empty password (password column
kept) and one with a fresh 9-character password (password column replaced),
on a concrete one-row store. -/
theorem update_password_witness :
    validateUser ⟨.str "New Name", .str "new@x.com", .str "1112223334", .str "User",
      .str ""⟩ true = Except.ok [] ∧
    putUser 1 ⟨.str "New Name", .str "new@x.com", .str "1112223334", .str "User", .str ""⟩
        ⟨[⟨1, "Ann Lee", "ann@x.com", "1234567890", "Admin", "oldpasswd"⟩], 2⟩ =
      Except.ok (⟨200, .message "User updated successfully"⟩,
        ⟨[⟨1, "New Name", "new@x.com", "1112223334", "User", "oldpasswd"⟩], 2⟩) ∧
    putUser 1 ⟨.str "New Name", .str "new@x.com", .str "1112223334", .str "User",
        .str "freshpass"⟩
        ⟨[⟨1, "Ann Lee", "ann@x.com", "1234567890", "Admin", "oldpasswd"⟩], 2⟩ =
      Except.ok (⟨200, .message "User updated successfully"⟩,
        ⟨[⟨1, "New Name", "new@x.com", "1112223334", "User", "freshpass"⟩], 2⟩) := by
  refine ⟨by rfl, ?_, ?_⟩
  · have h := update_password_semantics
      ⟨[⟨1, "Ann Lee", "ann@x.com", "1234567890", "Admin", "oldpasswd"⟩], 2⟩ 1
      "New Name" "new@x.com" "1112223334" "User" (.str "") (by rfl) (by decide) (by decide)
    simpa using h
  · have h := update_password_semantics
      ⟨[⟨1, "Ann Lee", "ann@x.com", "1234567890", "Admin", "oldpasswd"⟩], 2⟩ 1
      "New Name" "new@x.com" "1112223334" "User" (.str "freshpass") (by rfl) (by decide)
      (by decide)
    simpa using h

/-- `c` is one of the 26 ASCII uppercase letters. -/
def isAsciiUpper (c : Char) : Bool :=
  upPairs.any fun p => p.fst == c

/-- The C10 invariant on one stored email: no ASCII uppercase letter
anywhere, and no leading or trailing whitespace. -/
def emailNormB (s : String) : Bool :=
  s.toList.all (fun c => !isAsciiUpper c) &&
  (match s.toList.head? with
    | some c => !c.isWhitespace
    | none => true) &&
  (match s.toList.getLast? with
    | some c => !c.isWhitespace
    | none => true)

/-- The C10 invariant over the whole store. -/
def storeEmailsNorm (st : UserStore) : Bool :=
  st.rows.all fun r => emailNormB r.email

theorem jsCharLower_not_upper (c : Char) : isAsciiUpper (jsCharLower c) = false := by
  unfold jsCharLower
  cases h : upPairs.find? (fun p => p.fst == c) with
  | none =>
      have hall := List.find?_eq_none.mp h
      unfold isAsciiUpper
      rw [List.any_eq_false]
      exact fun p hp => hall p hp
  | some p =>
      have hmem := List.mem_of_find?_eq_some h
      have hall : ∀ q ∈ upPairs, isAsciiUpper q.snd = false := by decide
      exact hall p hmem

theorem jsCharLower_ws (c : Char) (h : c.isWhitespace = false) :
    (jsCharLower c).isWhitespace = false := by
  unfold jsCharLower
  cases hf : upPairs.find? (fun p => p.fst == c) with
  | none => exact h
  | some p =>
      have hmem := List.mem_of_find?_eq_some hf
      have hall : ∀ q ∈ upPairs, q.snd.isWhitespace = false := by decide
      exact hall p hmem

theorem head?_dropWhile_not (p : Char → Bool) : ∀ (l : List Char) (c : Char),
    (l.dropWhile p).head? = some c → p c = false
  | [], c, h => by simp [List.dropWhile] at h
  | a :: l, c, h => by
      cases hb : p a with
      | true =>
          rw [List.dropWhile_cons, if_pos (by rw [hb])] at h
          exact head?_dropWhile_not p l c h
      | false =>
          rw [List.dropWhile_cons, if_neg (by rw [hb]; exact Bool.false_ne_true)] at h
          simp only [List.head?_cons, Option.some.injEq] at h
          rw [← h]
          exact hb

theorem getLast?_dropWhile (p : Char → Bool) : ∀ (l : List Char),
    l.dropWhile p ≠ [] → (l.dropWhile p).getLast? = l.getLast?
  | [], h => by simp [List.dropWhile] at h
  | a :: l, h => by
      cases hb : p a with
      | true =>
          rw [List.dropWhile_cons, if_pos (by rw [hb])] at h ⊢
          have hl : l ≠ [] := by
            intro he
            subst he
            simp [List.dropWhile] at h
          rw [getLast?_dropWhile p l h]
          cases l with
          | nil => exact absurd rfl hl
          | cons b l2 => rw [List.getLast?_cons_cons]
      | false =>
          rw [List.dropWhile_cons, if_neg (by rw [hb]; exact Bool.false_ne_true)]

theorem trimChars_head (l : List Char) (c : Char)
    (h : (trimChars l).head? = some c) : c.isWhitespace = false := by
  unfold trimChars at h
  rw [List.head?_reverse] at h
  have hne : ((l.dropWhile Char.isWhitespace).reverse.dropWhile Char.isWhitespace) ≠ [] := by
    intro he
    rw [he] at h
    simp at h
  rw [getLast?_dropWhile Char.isWhitespace _ hne, List.getLast?_reverse] at h
  exact head?_dropWhile_not Char.isWhitespace l c h

theorem trimChars_getLast (l : List Char) (c : Char)
    (h : (trimChars l).getLast? = some c) : c.isWhitespace = false := by
  unfold trimChars at h
  rw [List.getLast?_reverse] at h
  exact head?_dropWhile_not Char.isWhitespace _ c h

/-- The email the handlers store — `email.trim().toLowerCase()` — always
satisfies the normalization invariant. -/
theorem emailNorm_lower_trim (s : String) :
    emailNormB (jsStrLower (jsStrTrim s)) = true := by
  have hL : (jsStrLower (jsStrTrim s)).toList = (trimChars s.toList).map jsCharLower := rfl
  unfold emailNormB
  rw [hL]
  refine (Bool.and_eq_true _ _).mpr ⟨(Bool.and_eq_true _ _).mpr ⟨?_, ?_⟩, ?_⟩
  · rw [List.all_eq_true]
    intro c hc
    rw [List.mem_map] at hc
    obtain ⟨c0, _, rfl⟩ := hc
    simp [jsCharLower_not_upper]
  · rw [List.head?_map]
    cases hh : (trimChars s.toList).head? with
    | none => rfl
    | some c0 =>
        have hw := trimChars_head s.toList c0 hh
        simp [jsCharLower_ws c0 hw]
  · rw [List.getLast?_map]
    cases hh : (trimChars s.toList).getLast? with
    | none => rfl
    | some c0 =>
        have hw := trimChars_getLast s.toList c0 hh
        simp [jsCharLower_ws c0 hw]

theorem jsTrim_ok_shape (v : JSVal) (s : String) (h : jsTrim v = Except.ok s) :
    ∃ s0, s = jsStrTrim s0 := by
  cases v <;> simp [jsTrim] at h
  exact ⟨_, h.symm⟩

instance : IsTotal PubUser (fun a b => b.id ≤ a.id) :=
  ⟨fun a b => Nat.le_total b.id a.id⟩

instance : IsTrans PubUser (fun a b => b.id ≤ a.id) :=
  ⟨fun _ _ _ h1 h2 => Nat.le_trans h2 h1⟩

/-- Claim C5: on any store whose row ids are distinct (the PRIMARY KEY
invariant of the table), `list()` returns 200 with a permutation of the
password-free projections of all rows, pairwise strictly descending on id;
and the output is insensitive to the password column (it depends only on
the password-free projections). -/
theorem list_users_sorted (st : UserStore)
    (hnd : (st.rows.map fun r => r.id).Nodup) :
    ∃ l, listUsers st = ⟨200, .userList l⟩ ∧
      l.Perm (st.rows.map toPub) ∧
      l.Pairwise (fun a b => b.id < a.id) ∧
      (∀ (rows2 : List UserRow) (n2 : Nat), rows2.map toPub = st.rows.map toPub →
        listUsers ⟨rows2, n2⟩ = listUsers st) := by
  have hperm := List.perm_insertionSort (fun a b : PubUser => b.id ≤ a.id)
    (st.rows.map toPub)
  refine ⟨_, rfl, hperm, ?_, ?_⟩
  · have hs := List.sorted_insertionSort (fun a b : PubUser => b.id ≤ a.id)
      (st.rows.map toPub)
    unfold List.Sorted at hs
    have hnd2 : ((st.rows.map toPub).map fun u => u.id).Nodup := by
      rw [List.map_map]
      exact hnd
    have hnd3 : ((List.insertionSort (fun a b : PubUser => b.id ≤ a.id)
        (st.rows.map toPub)).map fun u => u.id).Nodup :=
      ((hperm.map fun u => u.id).nodup_iff).mpr hnd2
    have hne : (List.insertionSort (fun a b : PubUser => b.id ≤ a.id)
        (st.rows.map toPub)).Pairwise fun a b => a.id ≠ b.id :=
      List.pairwise_map.mp hnd3
    exact (hs.and hne).imp fun h => Nat.lt_of_le_of_ne h.1 fun he => h.2 he.symm
  · intro rows2 n2 h
    simp [listUsers, h]

/-- Claim C5 witness: a two-row store with ids 1 and 2 lists them as
[2, 1], password-free. -/
theorem list_users_witness :
    (([⟨1, "Ann Lee", "ann@x.com", "1234567890", "Admin", "password1"⟩,
        ⟨2, "Bob Roy", "bob@x.com", "0987654321", "User", "password2"⟩] :
      List UserRow).map fun r => r.id).Nodup ∧
    (∃ l,
      listUsers ⟨[⟨1, "Ann Lee", "ann@x.com", "1234567890", "Admin", "password1"⟩,
          ⟨2, "Bob Roy", "bob@x.com", "0987654321", "User", "password2"⟩], 3⟩ =
        ⟨200, .userList l⟩ ∧
      l.Perm (([⟨1, "Ann Lee", "ann@x.com", "1234567890", "Admin", "password1"⟩,
          ⟨2, "Bob Roy", "bob@x.com", "0987654321", "User", "password2"⟩] :
        List UserRow).map toPub) ∧
      l.Pairwise (fun a b => b.id < a.id) ∧
      (∀ (rows2 : List UserRow) (n2 : Nat),
        rows2.map toPub =
          ([⟨1, "Ann Lee", "ann@x.com", "1234567890", "Admin", "password1"⟩,
            ⟨2, "Bob Roy", "bob@x.com", "0987654321", "User", "password2"⟩] :
          List UserRow).map toPub →
        listUsers ⟨rows2, n2⟩ =
          listUsers ⟨[⟨1, "Ann Lee", "ann@x.com", "1234567890", "Admin", "password1"⟩,
            ⟨2, "Bob Roy", "bob@x.com", "0987654321", "User", "password2"⟩], 3⟩)) :=
  ⟨by decide,
    list_users_sorted
      ⟨[⟨1, "Ann Lee", "ann@x.com", "1234567890", "Admin", "password1"⟩,
        ⟨2, "Bob Roy", "bob@x.com", "0987654321", "User", "password2"⟩], 3⟩
      (by decide)⟩

/-- Claim C2: after a successful insert, a second insert whose email agrees
with the first up to letter case and surrounding whitespace — and likewise
an update of a different existing row to that email — fails with the
distinct duplicate error (HTTP 400, `Email already exists`), not a generic
failure, and returns the store unchanged. -/
theorem duplicate_email_rejected (st : UserStore)
    (fn1 em1 ph1 rl1 pw1 fn2 em2 ph2 rl2 pw2 : String)
    (hval1 : validateUser ⟨.str fn1, .str em1, .str ph1, .str rl1, .str pw1⟩ false =
      Except.ok [])
    (hval2 : validateUser ⟨.str fn2, .str em2, .str ph2, .str rl2, .str pw2⟩ false =
      Except.ok [])
    (hem : jsStrLower (jsStrTrim em2) = jsStrLower (jsStrTrim em1))
    (hfree : emailTaken st.rows (jsStrLower (jsStrTrim em1)) = false) :
    ∃ st1,
      postUser ⟨.str fn1, .str em1, .str ph1, .str rl1, .str pw1⟩ st =
        Except.ok (⟨201, .created st.nextId (.str fn1) (.str em1) (.str ph1) (.str rl1)⟩,
          st1) ∧
      postUser ⟨.str fn2, .str em2, .str ph2, .str rl2, .str pw2⟩ st1 =
        Except.ok (⟨400, .errorMsg "Email already exists"⟩, st1) ∧
      (∀ j, j ≠ st.nextId → (st1.rows.any fun r => r.id == j) = true →
        validateUser ⟨.str fn2, .str em2, .str ph2, .str rl2, .str pw2⟩ true =
          Except.ok [] →
        putUser j ⟨.str fn2, .str em2, .str ph2, .str rl2, .str pw2⟩ st1 =
          Except.ok (⟨400, .errorMsg "Email already exists"⟩, st1)) := by
  refine ⟨⟨st.rows ++ [⟨st.nextId, jsStrTrim fn1, jsStrLower (jsStrTrim em1),
    jsStrTrim ph1, rl1, pw1⟩], st.nextId + 1⟩, ?_, ?_, ?_⟩
  · simp [postUser, hval1, jsTrim, jsToString_str, insertRow, hfree]
  · have htaken : emailTaken (st.rows ++ [⟨st.nextId, jsStrTrim fn1,
        jsStrLower (jsStrTrim em1), jsStrTrim ph1, rl1, pw1⟩])
        (jsStrLower (jsStrTrim em2)) = true := by
      rw [hem]
      simp [emailTaken]
    simp [postUser, hval2, jsTrim, insertRow, htaken]
  · intro j hj hex hvalu
    have hupd : ((st.rows ++ [(⟨st.nextId, jsStrTrim fn1, jsStrLower (jsStrTrim em1),
        jsStrTrim ph1, rl1, pw1⟩ : UserRow)]).any fun r =>
          r.id != j && r.email == jsStrLower (jsStrTrim em2)) = true := by
      rw [hem]
      have hmem : (⟨st.nextId, jsStrTrim fn1, jsStrLower (jsStrTrim em1), jsStrTrim ph1,
          rl1, pw1⟩ : UserRow) ∈
          st.rows ++ [(⟨st.nextId, jsStrTrim fn1, jsStrLower (jsStrTrim em1), jsStrTrim ph1,
            rl1, pw1⟩ : UserRow)] := by simp
      refine List.any_eq_true.mpr
        ⟨⟨st.nextId, jsStrTrim fn1, jsStrLower (jsStrTrim em1), jsStrTrim ph1, rl1, pw1⟩,
          hmem, ?_⟩
      simp [Ne.symm hj]
    simp [putUser, hvalu, hex, jsTrim, updateRows, hupd]

/-- Claim C2 witness: `A@B.com` then ` a@b.COM ` collide on insert, and an
update of pre-existing row 1 to that email collides as well. -/
theorem duplicate_email_witness :
    validateUser ⟨.str "John Doe", .str "A@B.com", .str "1234567890", .str "Admin",
      .str "password1"⟩ false = Except.ok [] ∧
    validateUser ⟨.str "Jane Roe", .str "a@b.COM", .str "0987654321", .str "User",
      .str "password2"⟩ false = Except.ok [] ∧
    jsStrLower (jsStrTrim "a@b.COM") = jsStrLower (jsStrTrim "A@B.com") ∧
    (∃ st1,
      postUser ⟨.str "John Doe", .str "A@B.com", .str "1234567890", .str "Admin",
          .str "password1"⟩
        ⟨[⟨1, "Ann Lee", "ann@x.com", "5556667778", "User", "password9"⟩], 2⟩ =
        Except.ok (⟨201, .created 2 (.str "John Doe") (.str "A@B.com") (.str "1234567890")
          (.str "Admin")⟩, st1) ∧
      postUser ⟨.str "Jane Roe", .str "a@b.COM", .str "0987654321", .str "User",
          .str "password2"⟩ st1 =
        Except.ok (⟨400, .errorMsg "Email already exists"⟩, st1) ∧
      (∀ j, j ≠ 2 → (st1.rows.any fun r => r.id == j) = true →
        validateUser ⟨.str "Jane Roe", .str "a@b.COM", .str "0987654321", .str "User",
          .str "password2"⟩ true = Except.ok [] →
        putUser j ⟨.str "Jane Roe", .str "a@b.COM", .str "0987654321", .str "User",
            .str "password2"⟩ st1 =
          Except.ok (⟨400, .errorMsg "Email already exists"⟩, st1))) :=
  ⟨by rfl, by rfl, by rfl,
    duplicate_email_rejected
      ⟨[⟨1, "Ann Lee", "ann@x.com", "5556667778", "User", "password9"⟩], 2⟩
      "John Doe" "A@B.com" "1234567890" "Admin" "password1"
      "Jane Roe" "a@b.COM" "0987654321" "User" "password2"
      (by rfl) (by rfl) (by rfl) (by rfl)⟩

/-- Claim C9: on a successful insert the 201 body echoes full_name, email
and phone exactly as supplied (untrimmed, original letter case) while the
stored row holds the trimmed values with the email lowercased; on the
concrete input below the echoed record therefore differs from the record a
subsequent list() returns. -/
theorem post_echoes_raw_values (st : UserStore) (fn em ph rl pw : String)
    (hval : validateUser ⟨.str fn, .str em, .str ph, .str rl, .str pw⟩ false =
      Except.ok [])
    (hfree : emailTaken st.rows (jsStrLower (jsStrTrim em)) = false) :
    (postUser ⟨.str fn, .str em, .str ph, .str rl, .str pw⟩ st =
      Except.ok (⟨201, .created st.nextId (.str fn) (.str em) (.str ph) (.str rl)⟩,
        ⟨st.rows ++ [⟨st.nextId, jsStrTrim fn, jsStrLower (jsStrTrim em), jsStrTrim ph,
          rl, pw⟩], st.nextId + 1⟩)) ∧
    (postUser ⟨.str " John Doe ", .str "A@B.com", .str "1234567890", .str "Admin",
        .str "password1"⟩ ⟨[], 1⟩ =
      Except.ok
        (⟨201, .created 1 (.str " John Doe ") (.str "A@B.com") (.str "1234567890")
          (.str "Admin")⟩,
          ⟨[⟨1, "John Doe", "a@b.com", "1234567890", "Admin", "password1"⟩], 2⟩) ∧
      listUsers ⟨[⟨1, "John Doe", "a@b.com", "1234567890", "Admin", "password1"⟩], 2⟩ =
        ⟨200, .userList [⟨1, "John Doe", "a@b.com", "1234567890", "Admin"⟩]⟩ ∧
      " John Doe " ≠ "John Doe" ∧ "A@B.com" ≠ "a@b.com") := by
  refine ⟨?_, by rfl, by rfl, by decide, by decide⟩
  simp [postUser, hval, jsTrim, jsToString_str, insertRow, hfree]

/-- Claim C9 witness at the same concrete input. -/
theorem post_echoes_witness :
    validateUser ⟨.str " John Doe ", .str "A@B.com", .str "1234567890", .str "Admin",
      .str "password1"⟩ false = Except.ok [] ∧
    emailTaken ([] : List UserRow) (jsStrLower (jsStrTrim "A@B.com")) = false ∧
    postUser ⟨.str " John Doe ", .str "A@B.com", .str "1234567890", .str "Admin",
        .str "password1"⟩ ⟨[], 1⟩ =
      Except.ok
        (⟨201, .created 1 (.str " John Doe ") (.str "A@B.com") (.str "1234567890")
          (.str "Admin")⟩,
          ⟨[⟨1, jsStrTrim " John Doe ", jsStrLower (jsStrTrim "A@B.com"),
            jsStrTrim "1234567890", "Admin", "password1"⟩], 2⟩) :=
  ⟨by rfl, by rfl,
    (post_echoes_raw_values ⟨[], 1⟩ " John Doe " "A@B.com" "1234567890" "Admin"
      "password1" (by rfl) (by rfl)).1⟩

/-- Claim C6: for an id no stored record has, a valid update and a delete
both answer 404 `User not found` and leave the store unchanged; for an
existing id, delete answers 200 and removes exactly the rows with that id. -/
theorem missing_id_and_delete_semantics (st : UserStore) (i : Nat) (body : UserInput) :
    ((st.rows.any fun r => r.id == i) = false →
      (validateUser body true = Except.ok [] →
        putUser i body st = Except.ok (⟨404, .errorMsg "User not found"⟩, st)) ∧
      deleteUser i st = (⟨404, .errorMsg "User not found"⟩, st)) ∧
    ((st.rows.any fun r => r.id == i) = true →
      deleteUser i st =
        (⟨200, .message "User deleted successfully"⟩,
          ⟨st.rows.filter (fun r => !(r.id == i)), st.nextId⟩)) := by
  constructor
  · intro hx
    constructor
    · intro hval
      simp [putUser, hval, hx]
    · have h0 : st.rows.countP (fun r => r.id == i) = 0 := by
        rw [List.countP_eq_zero]
        intro a ha
        simp only [List.any_eq_false] at hx
        exact hx a ha
      simp [deleteUser, h0]
  · intro hx
    have h0 : st.rows.countP (fun r => r.id == i) ≠ 0 := by
      intro hz
      rw [List.countP_eq_zero] at hz
      simp only [List.any_eq_true] at hx
      obtain ⟨a, ha, hpa⟩ := hx
      exact hz a ha hpa
    simp [deleteUser, h0]

/-- Claim C6 witness at a concrete one-row store and missing id 3 /
existing id 1. -/
theorem missing_id_witness :
    (([⟨1, "Ann Lee", "ann@x.com", "1234567890", "Admin", "password1"⟩] : List UserRow).any
        (fun r => r.id == 3)) = false ∧
    validateUser ⟨.str "Bob Roy", .str "bob@x.com", .str "0987654321", .str "User",
      .str ""⟩ true = Except.ok [] ∧
    putUser 3 ⟨.str "Bob Roy", .str "bob@x.com", .str "0987654321", .str "User", .str ""⟩
        ⟨[⟨1, "Ann Lee", "ann@x.com", "1234567890", "Admin", "password1"⟩], 2⟩ =
      Except.ok (⟨404, .errorMsg "User not found"⟩,
        ⟨[⟨1, "Ann Lee", "ann@x.com", "1234567890", "Admin", "password1"⟩], 2⟩) ∧
    deleteUser 1 ⟨[⟨1, "Ann Lee", "ann@x.com", "1234567890", "Admin", "password1"⟩], 2⟩ =
      (⟨200, .message "User deleted successfully"⟩, ⟨[], 2⟩) :=
  ⟨by decide, by rfl,
    ((missing_id_and_delete_semantics
      ⟨[⟨1, "Ann Lee", "ann@x.com", "1234567890", "Admin", "password1"⟩], 2⟩ 3
      ⟨.str "Bob Roy", .str "bob@x.com", .str "0987654321", .str "User", .str ""⟩).1
      (by decide)).1 (by rfl),
    by
      have := (missing_id_and_delete_semantics
        ⟨[⟨1, "Ann Lee", "ann@x.com", "1234567890", "Admin", "password1"⟩], 2⟩ 1
        ⟨.str "Bob Roy", .str "bob@x.com", .str "0987654321", .str "User", .str ""⟩).2
        (by decide)
      simpa using this⟩

theorem updateRows_keeps_norm (rows : List UserRow) (i : Nat) (fn s0 ph rl : String)
    (pw : Option String) (rows2 : List UserRow)
    (hupd : updateRows rows i fn (jsStrLower (jsStrTrim s0)) ph rl pw = some rows2)
    (h : ∀ r ∈ rows, emailNormB r.email = true) :
    ∀ r ∈ rows2, emailNormB r.email = true := by
  unfold updateRows at hupd
  split at hupd
  · exact absurd hupd (by simp)
  · rw [Option.some.injEq] at hupd
    subst hupd
    intro r hr
    rw [List.mem_map] at hr
    obtain ⟨r0, hr0, rfl⟩ := hr
    by_cases hid : r0.id = i
    · rw [if_pos hid]
      exact emailNorm_lower_trim s0
    · rw [if_neg hid]
      exact h r0 hr0

/-- Claim C10: every user-store mutation preserves the invariant that each
stored email has no ASCII uppercase letter and no leading or trailing
whitespace: insert and update write `trim()`-then-`toLowerCase()` of the
supplied email before storing, and delete only removes rows. -/
theorem mutations_preserve_email_norm (st : UserStore)
    (h : storeEmailsNorm st = true) :
    (∀ body resp st2, postUser body st = Except.ok (resp, st2) →
      storeEmailsNorm st2 = true) ∧
    (∀ i body resp st2, putUser i body st = Except.ok (resp, st2) →
      storeEmailsNorm st2 = true) ∧
    (∀ i, storeEmailsNorm (deleteUser i st).2 = true) := by
  refine ⟨?_, ?_, ?_⟩
  · intro body resp st2 hp
    unfold postUser at hp
    split at hp
    · exact absurd hp (by simp)
    · split at hp
      · cases hp; exact h
      · split at hp
        · exact absurd hp (by simp)
        · split at hp
          · exact absurd hp (by simp)
          · rename_i em heqe
            split at hp
            · exact absurd hp (by simp)
            · split at hp
              · cases hp; exact h
              · rename_i newId st3 hins
                cases hp
                unfold insertRow at hins
                split at hins
                · exact absurd hins (by simp)
                · rw [Option.some.injEq, Prod.mk.injEq] at hins
                  obtain ⟨-, hst⟩ := hins
                  subst hst
                  simp only [storeEmailsNorm, List.all_eq_true] at h ⊢
                  intro r hr
                  rw [List.mem_append] at hr
                  rcases hr with hr | hr
                  · exact h r hr
                  · rw [List.mem_singleton] at hr
                    subst hr
                    obtain ⟨s0, rfl⟩ := jsTrim_ok_shape _ _ heqe
                    exact emailNorm_lower_trim s0
  · intro i body resp st2 hp
    unfold putUser at hp
    split at hp
    · exact absurd hp (by simp)
    · split at hp
      · cases hp; exact h
      · split at hp
        · cases hp; exact h
        · split at hp
          · exact absurd hp (by simp)
          · split at hp
            · exact absurd hp (by simp)
            · rename_i em heqe
              split at hp
              · exact absurd hp (by simp)
              · split at hp
                all_goals dsimp only at hp
                all_goals split at hp
                all_goals
                  first
                  | (cases hp; exact h)
                  | (rename_i rows2 hupd
                     cases hp
                     obtain ⟨s0, rfl⟩ := jsTrim_ok_shape _ _ heqe
                     simp only [storeEmailsNorm, List.all_eq_true] at h ⊢
                     exact updateRows_keeps_norm st.rows i _ s0 _ _ _ rows2 hupd h)
  · intro i
    unfold deleteUser
    split
    · exact h
    · simp only [storeEmailsNorm, List.all_eq_true] at h ⊢
      intro r hr
      exact h r (List.mem_of_mem_filter hr)

/-- Claim C10 witness: the invariant holds of the empty store and is kept
by a concrete insert that lowercases `A@B.com`. -/
theorem mutations_norm_witness :
    storeEmailsNorm ⟨[], 1⟩ = true ∧
    storeEmailsNorm ⟨[⟨1, "John Doe", "a@b.com", "1234567890", "Admin",
      "password1"⟩], 2⟩ = true :=
  ⟨by rfl,
    (mutations_preserve_email_norm ⟨[], 1⟩ (by rfl)).1
      ⟨.str "John Doe", .str "A@B.com", .str "1234567890", .str "Admin", .str "password1"⟩
      ⟨201, .created 1 (.str "John Doe") (.str "A@B.com") (.str "1234567890")
        (.str "Admin")⟩
      ⟨[⟨1, "John Doe", "a@b.com", "1234567890", "Admin", "password1"⟩], 2⟩
      (by rfl)⟩
